import Mathlib

/-!
Verification of the statistics ingestion, validation and aggregation pipeline
of the personal-account backend.

The development shallowly embeds the Python sources:
  app/db/queries.py            (SQL statements, embedded as pure list functions)
  app/repositories/integration.py
  app/repositories/stats.py
  app/repositories/certificate.py
  app/services/stats_processor.py
  app/services/cert_service.py (as an opaque collaborator parameter)
  app/clients/testing_client.py
  app/clients/validation/contract_manager.py

Modelling conventions:
  - UUID values are modelled as natural numbers; a field that Python may hold
    as a missing key or an unparseable string is an Option, with none standing
    for absent-or-unparseable (Python UUID(...) raises in that case).
  - Dates and timestamps are natural numbers; JSON blobs are opaque naturals
    (0 stands for the empty object produced by dict defaults).
  - Database tables are lists of row structures; SQL UPDATE maps over the
    list, INSERT appends, ON CONFLICT upserts update the matching rows.
    The updated_at bookkeeping columns are not read anywhere and are omitted.
  - Exceptions are an inductive PyExc; fallible code returns Except.
  - The external testing service response, the compiled-schema semantics and
    the certificate issuance collaborator (Keycloak, S3, PDF renderer; out of
    scope per the spec) enter as explicit function parameters.
-/

namespace LMS

/-- Python exception values that the pipeline produces or catches. -/
inductive PyExc where
  | contractValidation (msg : String)
  | valueErr (msg : String)
  | keyErr (msg : String)
  | typeErr (msg : String)
  | attributeErr (msg : String)
  deriving DecidableEq, Repr

/-- Rendering used where the source calls str(e) on a caught exception. -/
def pyStr : PyExc → String
  | .contractValidation m => m
  | .valueErr m => m
  | .keyErr m => m
  | .typeErr m => m
  | .attributeErr m => m

/-- UUID values, abstracted to naturals. -/
abbrev UUIDv := Nat

/-- Dates and timestamps, abstracted to naturals. -/
abbrev Timestamp := Nat

/-- Opaque model of a JSON value; 0 plays the role of the empty object. -/
abbrev JsonBlob := Nat

/-- A raw attempt payload as the processor and the upsert read it: exactly the
keys that app/repositories/stats.py upsert_attempt and
app/services/stats_processor.py process_raw_attempts access via payload.get.
An Option field is none when the key is missing or its value would not parse
(UUID or date parsing in the source raises there). -/
structure Payload where
  attempt_id : Option UUIDv
  student_id : Option UUIDv
  test_id : Option UUIDv
  date_of_attempt : Option Timestamp
  point : Option Rat
  result : Option JsonBlob
  completed : Option Bool
  passed : Option Bool
  certificate_id : Option UUIDv
  attempt_snapshot_s3 : Option String
  attempt_version : Option JsonBlob
  meta : Option JsonBlob
  deriving DecidableEq, Repr

/-- A raw payload blob as stored in integration.raw_user_stats: the testing
client persists either a JSON object or, for the attempts-list fallback, a
JSON array of items. -/
inductive Blob where
  | obj (p : Payload)
  | arr (ps : List Payload)
  deriving DecidableEq, Repr

/-- Row of integration.raw_attempts (migrate-002 schema, columns read by the
pipeline). -/
structure RawAttemptRow where
  id : Nat
  external_attempt_id : UUIDv
  student_id : Option UUIDv
  test_id : Option UUIDv
  payload : Payload
  received_at : Option Timestamp
  processed : Bool
  processing_attempts : Nat
  error_message : Option String
  deriving DecidableEq, Repr

/-- Row of integration.raw_user_stats. -/
structure RawUserStatsRow where
  id : Nat
  student_id : UUIDv
  payload : Blob
  received_at : Option Timestamp
  processed : Bool
  error_message : Option String
  deriving DecidableEq, Repr

/-- Row of tests.test_attempt_b, the canonical business table. -/
structure TestAttemptRow where
  id : UUIDv
  student_id : UUIDv
  test_id : Option UUIDv
  date_of_attempt : Option Timestamp
  point : Option Rat
  result : JsonBlob
  completed : Bool
  passed : Option Bool
  certificate_id : Option UUIDv
  attempt_snapshot_s3 : Option String
  attempt_version : Option JsonBlob
  meta : JsonBlob
  deriving DecidableEq, Repr

/-- The aggregated statistics dictionary built by
StatsRepository.calculate_and_save_aggregated (Python stores the student id
and the last-attempt date as strings; the values are modelled directly). -/
structure StatsDict where
  student_id : UUIDv
  total_attempts : Nat
  passed_attempts : Nat
  failed_attempts : Nat
  avg_score : Rat
  total_tests_taken : Nat
  last_attempt_at : Option Timestamp
  deriving DecidableEq, Repr

/-- Row of stats.student_stats_aggregated. -/
structure AggRow where
  student_id : UUIDv
  total_attempts : Nat
  passed_attempts : Nat
  failed_attempts : Nat
  avg_score : Rat
  total_tests_taken : Nat
  last_attempt_at : Option Timestamp
  stats_json : StatsDict
  deriving DecidableEq, Repr

/-- Row of personal_account.certificate_b (columns the pipeline touches). -/
structure CertificateRow where
  id : UUIDv
  student_id : UUIDv
  certificate_number : Nat
  pdf_s3_key : Option String
  snapshot_s3_key : Option String
  deriving DecidableEq, Repr

/-- The database state: the tables the pipeline reads and writes, the student
table used for the existence check, and the serial counter for fresh raw ids. -/
structure Db where
  raw_user_stats : List RawUserStatsRow
  raw_attempts : List RawAttemptRow
  test_attempt_b : List TestAttemptRow
  student_stats_aggregated : List AggRow
  certificate_b : List CertificateRow
  student_s : List UUIDv
  next_id : Nat
  deriving DecidableEq, Repr

/-- The Redis cache: the user_stats keys (keyed by student id; the TTL only
bounds staleness and is not modelled). -/
abbrev Cache := List (UUIDv × StatsDict)

/-- Database plus cache. -/
structure SysState where
  db : Db
  cache : Cache
  deriving DecidableEq, Repr

/-! ## Integration repository (app/repositories/integration.py and the
INSERT_RAW_ATTEMPT / INSERT_RAW_USER_STATS statements of app/db/queries.py) -/

/-- Parameters of the INSERT_RAW_ATTEMPT statement. -/
structure RawAttemptParams where
  external_attempt_id : UUIDv
  student_id : Option UUIDv
  test_id : Option UUIDv
  payload : Payload
  received_at : Option Timestamp
  processed : Bool
  processing_attempts : Nat
  error_message : Option String
  deriving DecidableEq, Repr

/-- INSERT_RAW_ATTEMPT: insert into integration.raw_attempts, and on conflict
over external_attempt_id update payload, received_at and processed from the
excluded row while keeping the stored processing_attempts. -/
def insert_raw_attempt_sql (db : Db) (ps : RawAttemptParams) : Db :=
  if db.raw_attempts.any (fun q => q.external_attempt_id = ps.external_attempt_id) then
    { db with raw_attempts := db.raw_attempts.map (fun q =>
        if q.external_attempt_id = ps.external_attempt_id then
          { q with payload := ps.payload
                   received_at := ps.received_at
                   processed := ps.processed }
        else q) }
  else
    { db with
      raw_attempts := db.raw_attempts ++
        [{ id := db.next_id
           external_attempt_id := ps.external_attempt_id
           student_id := ps.student_id
           test_id := ps.test_id
           payload := ps.payload
           received_at := ps.received_at
           processed := ps.processed
           processing_attempts := ps.processing_attempts
           error_message := ps.error_message }]
      next_id := db.next_id + 1 }

/-- integration_repository.insert_raw_attempt: runs INSERT_RAW_ATTEMPT with
received_at None, processed False, processing_attempts 0 and no error. -/
def insert_raw_attempt (db : Db) (external_attempt_id : UUIDv)
    (student_id : Option UUIDv) (test_id : Option UUIDv) (payload : Payload) : Db :=
  insert_raw_attempt_sql db
    { external_attempt_id := external_attempt_id
      student_id := student_id
      test_id := test_id
      payload := payload
      received_at := none
      processed := false
      processing_attempts := 0
      error_message := none }

/-- integration_repository.insert_raw_user_stats: INSERT_RAW_USER_STATS, a
plain append with received_at None, processed False and no error. -/
def insert_raw_user_stats (db : Db) (student_id : UUIDv) (payload : Blob) : Db :=
  { db with
    raw_user_stats := db.raw_user_stats ++
      [{ id := db.next_id
         student_id := student_id
         payload := payload
         received_at := none
         processed := false
         error_message := none }]
    next_id := db.next_id + 1 }

/-! ## Stats repository (app/repositories/stats.py and the integration and
stats statements of app/db/queries.py) -/

/-- Ordering key of ORDER BY received_at ASC: NULL timestamps sort last
(PostgreSQL default for ascending order). -/
def received_le : Option Timestamp → Option Timestamp → Bool
  | none, none => true
  | none, some _ => false
  | some _, none => true
  | some a, some b => a ≤ b

/-- Stable insertion used by the ORDER BY embedding. -/
def insert_by_received (x : RawAttemptRow) : List RawAttemptRow → List RawAttemptRow
  | [] => [x]
  | y :: ys =>
      if received_le y.received_at x.received_at then y :: insert_by_received x ys
      else x :: y :: ys

/-- Stable sort by received_at with NULLs last. -/
def sort_by_received : List RawAttemptRow → List RawAttemptRow
  | [] => []
  | x :: xs => insert_by_received x (sort_by_received xs)

/-- SELECT_UNPROCESSED_ATTEMPTS: unprocessed raw attempts, oldest received_at
first, bounded by the limit. -/
def get_unprocessed_attempts (db : Db) (limit : Nat) : List RawAttemptRow :=
  (sort_by_received (db.raw_attempts.filter (fun q => !q.processed))).take limit

/-- MARK_RAW_ATTEMPT_PROCESSED via StatsRepository.mark_attempt_processed: the
UPDATE sets processed to TRUE (and updated_at) for the row with the given id.
The error argument of the Python method is accepted but never bound into the
statement, so error_message is left untouched. -/
def mark_attempt_processed (db : Db) (raw_id : Nat) (error : Option String) : Db :=
  { db with raw_attempts := db.raw_attempts.map (fun q =>
      if q.id = raw_id then { q with processed := true } else q) }

/-- Row kept unprocessed-flagged by mark: the statement only flips processed. -/
theorem mark_attempt_processed_keeps_error (db : Db) (raw_id : Nat)
    (error : Option String) (q : RawAttemptRow)
    (hq : q ∈ (mark_attempt_processed db raw_id error).raw_attempts) :
    ∃ p ∈ db.raw_attempts, q.error_message = p.error_message := by
  simp only [mark_attempt_processed, List.mem_map] at hq
  obtain ⟨p, hp, hpq⟩ := hq
  refine ⟨p, hp, ?_⟩
  by_cases h : p.id = raw_id <;> simp [h] at hpq <;> simp [← hpq]

/-- Parameters of the TEST_ATTEMPT_UPSERT statement. -/
structure UpsertParams where
  id : UUIDv
  student_id : UUIDv
  test_id : Option UUIDv
  date_of_attempt : Option Timestamp
  point : Option Rat
  result : JsonBlob
  completed : Bool
  passed : Option Bool
  certificate_id : Option UUIDv
  snapshot : Option String
  version : Option JsonBlob
  meta : JsonBlob
  deriving DecidableEq, Repr

/-- TEST_ATTEMPT_UPSERT, effect on the tests.test_attempt_b table: insert; on
conflict over id update point, result, completed, passed, certificate_id,
snapshot, version and meta (student_id, test_id and date_of_attempt keep their
stored values). -/
def upsert_table (t : List TestAttemptRow) (ps : UpsertParams) : List TestAttemptRow :=
  if t.any (fun q => q.id = ps.id) then
    t.map (fun q =>
      if q.id = ps.id then
        { q with point := ps.point
                 result := ps.result
                 completed := ps.completed
                 passed := ps.passed
                 certificate_id := ps.certificate_id
                 attempt_snapshot_s3 := ps.snapshot
                 attempt_version := ps.version
                 meta := ps.meta }
      else q)
  else t ++
    [{ id := ps.id
       student_id := ps.student_id
       test_id := ps.test_id
       date_of_attempt := ps.date_of_attempt
       point := ps.point
       result := ps.result
       completed := ps.completed
       passed := ps.passed
       certificate_id := ps.certificate_id
       attempt_snapshot_s3 := ps.snapshot
       attempt_version := ps.version
       meta := ps.meta }]

/-- TEST_ATTEMPT_UPSERT as a database operation: it touches only the
tests.test_attempt_b table. -/
def test_attempt_upsert (db : Db) (ps : UpsertParams) : Db :=
  { db with test_attempt_b := upsert_table db.test_attempt_b ps }

/-- StatsRepository.upsert_attempt: build the statement parameters from the
validated payload. Reading payload of attempt_id raises KeyError when the key
is missing, and UUID parsing raises ValueError on a bad value; both
possibilities are the none case of the modelled field. -/
def build_upsert_params (p : Payload) : Except PyExc UpsertParams :=
  match p.attempt_id with
  | none => .error (.keyErr "attempt_id")
  | some aid =>
    match p.student_id with
    | none => .error (.keyErr "student_id")
    | some sid =>
      .ok { id := aid
            student_id := sid
            test_id := p.test_id
            date_of_attempt := p.date_of_attempt
            point := p.point
            result := p.result.getD 0
            completed := p.completed.getD false
            passed := p.passed
            certificate_id := p.certificate_id
            snapshot := p.attempt_snapshot_s3
            version := p.attempt_version
            meta := p.meta.getD 0 }

/-- StatsRepository.upsert_attempt: parameter construction then the upsert. -/
def upsert_attempt (db : Db) (p : Payload) : Except PyExc Db :=
  (build_upsert_params p).map (test_attempt_upsert db)

/-- The grouped row produced by STUDENT_STATS_CALCULATE for one student. -/
structure CalcRow where
  total_attempts : Nat
  passed_attempts : Nat
  failed_attempts : Nat
  avg_score : Rat
  total_tests_taken : Nat
  last_attempt_at : Option Timestamp
  deriving DecidableEq, Repr

/-- Maximum of a list of timestamps, none on the empty list (SQL MAX). -/
def max_date : List Timestamp → Option Timestamp
  | [] => none
  | t :: ts =>
    match max_date ts with
    | none => some t
    | some m => some (max t m)

/-- SQL AVG over the non-NULL points with COALESCE(.., 0): the mean when at
least one value is present, otherwise 0. -/
def avg_points (pts : List Rat) : Rat :=
  if pts.isEmpty then 0 else pts.sum / pts.length

/-- STUDENT_STATS_CALCULATE: aggregate the canonical attempts of one student;
GROUP BY yields no row when the student has no attempts. COUNT DISTINCT and
MAX ignore NULL values. -/
def student_stats_calculate (db : Db) (sid : UUIDv) : Option CalcRow :=
  let rows := db.test_attempt_b.filter (fun a => a.student_id = sid)
  if rows.isEmpty then none
  else some
    { total_attempts := rows.length
      passed_attempts := (rows.filter (fun a => a.passed = some true)).length
      failed_attempts := (rows.filter (fun a => a.passed = some false)).length
      avg_score := avg_points (rows.filterMap (fun a => a.point))
      total_tests_taken := (rows.filterMap (fun a => a.test_id)).dedup.length
      last_attempt_at := max_date (rows.filterMap (fun a => a.date_of_attempt)) }

/-- STUDENT_STATS_AGGREGATED_UPSERT, effect on the aggregate table: one row
per student, overwritten wholesale on conflict. -/
def agg_upsert_table (t : List AggRow) (row : AggRow) : List AggRow :=
  if t.any (fun q => q.student_id = row.student_id) then
    t.map (fun q =>
      if q.student_id = row.student_id then { row with student_id := q.student_id }
      else q)
  else t ++ [row]

/-- STUDENT_STATS_AGGREGATED_UPSERT as a database operation: it touches only
the stats.student_stats_aggregated table. -/
def student_stats_aggregated_upsert (db : Db) (row : AggRow) : Db :=
  { db with student_stats_aggregated := agg_upsert_table db.student_stats_aggregated row }

/-- StatsRepository.calculate_and_save_aggregated: run the aggregate query,
default every counter to zero (and the average to 0.0, the last date to None)
when the student has no attempts, persist the result to the durable aggregate
table, and return the stats dictionary. -/
def calculate_and_save_aggregated (db : Db) (sid : UUIDv) : Db × StatsDict :=
  let stats : StatsDict :=
    match student_stats_calculate db sid with
    | none =>
        { student_id := sid, total_attempts := 0, passed_attempts := 0
          failed_attempts := 0, avg_score := 0, total_tests_taken := 0
          last_attempt_at := none }
    | some r =>
        { student_id := sid, total_attempts := r.total_attempts
          passed_attempts := r.passed_attempts, failed_attempts := r.failed_attempts
          avg_score := r.avg_score, total_tests_taken := r.total_tests_taken
          last_attempt_at := r.last_attempt_at }
  let db' := student_stats_aggregated_upsert db
    { student_id := sid
      total_attempts := stats.total_attempts
      passed_attempts := stats.passed_attempts
      failed_attempts := stats.failed_attempts
      avg_score := stats.avg_score
      total_tests_taken := stats.total_tests_taken
      last_attempt_at := stats.last_attempt_at
      stats_json := stats }
  (db', stats)

/-- StatsRepository.get_from_redis: cache lookup under the user_stats key. -/
def get_from_redis (c : Cache) (sid : UUIDv) : Option StatsDict :=
  (c.find? (fun e => e.1 = sid)).map (fun e => e.2)

/-- StatsRepository.save_to_redis: SETEX overwrites the user_stats key. -/
def save_to_redis (c : Cache) (sid : UUIDv) (stats : StatsDict) : Cache :=
  if c.any (fun e => e.1 = sid) then
    c.map (fun e => if e.1 = sid then (e.1, stats) else e)
  else c ++ [(sid, stats)]

/-- StatsRepository.invalidate_cache: DEL of the user_stats key; the durable
tables are untouched. -/
def invalidate_cache (c : Cache) (sid : UUIDv) : Cache :=
  c.filter (fun e => e.1 ≠ sid)

/-- StatsRepository.get_from_db: STUDENT_STATS_AGGREGATED_SELECT, returning
the stored stats dictionary when a row exists (stats_json is a non-empty JSON
object whenever present, so the truthiness test of the source is row
existence). -/
def get_from_db (db : Db) (sid : UUIDv) : Option StatsDict :=
  (db.student_stats_aggregated.find? (fun q => q.student_id = sid)).map
    (fun q => q.stats_json)

/-- The tier that served a get_user_stats read: the Redis cache, the durable
aggregate table, or a full recompute from the canonical table (only the last
one queries tests.test_attempt_b). -/
inductive Tier where
  | cacheHit
  | aggHit
  | recomputed
  deriving DecidableEq, Repr

/-- StatsRepository.get_user_stats: Redis, then the durable aggregate table
with write-through to Redis, then a full recompute persisted to both. The
returned tier names the branch of the source that produced the value. -/
def get_user_stats (st : SysState) (sid : UUIDv) : SysState × StatsDict × Tier :=
  match get_from_redis st.cache sid with
  | some stats => (st, stats, .cacheHit)
  | none =>
    match get_from_db st.db sid with
    | some stats =>
        ({ st with cache := save_to_redis st.cache sid stats }, stats, .aggHit)
    | none =>
        let cs := calculate_and_save_aggregated st.db sid
        ({ db := cs.1, cache := save_to_redis st.cache sid cs.2 }, cs.2, .recomputed)

/-! ## Stats processor (app/services/stats_processor.py) -/

/-- The fallible part of one iteration of the process_raw_attempts loop, up to
but excluding the database write: contract validation (the ContractManager
collaborator enters as the validate parameter), parsing the student id from
the payload, the student existence check, and the construction of the upsert
parameters (the fallible prefix of StatsRepository.upsert_attempt). -/
def attempt_outcome (validate : Payload → Except PyExc Unit)
    (students : List UUIDv) (p : Payload) : Except PyExc (UUIDv × UpsertParams) := do
  validate p
  let sid ← match p.student_id with
    | none => Except.error (PyExc.valueErr "badly formed UUID")
    | some s => Except.ok s
  if students.contains sid then pure () else Except.error (PyExc.valueErr "Student not found")
  let ps ← build_upsert_params p
  return (sid, ps)

/-- The per-record loop of StatsProcessor.process_raw_attempts: on success the
canonical upsert runs, the raw row is marked processed with no error and the
student id joins the affected set; on any exception the raw row is marked
processed with the stringified error (which the mark statement then drops) and
the failed counter grows. The except clause catches every exception, so the
loop itself is total. -/
def process_loop (validate : Payload → Except PyExc Unit) :
    List RawAttemptRow → Db → Nat → Nat → List UUIDv → Db × Nat × Nat × List UUIDv
  | [], db, p, f, aff => (db, p, f, aff)
  | raw :: rest, db, p, f, aff =>
    match attempt_outcome validate db.student_s raw.payload with
    | .ok (sid, ps) =>
        let db1 := mark_attempt_processed (test_attempt_upsert db ps) raw.id none
        process_loop validate rest db1 (p + 1) f
          (if aff.contains sid then aff else aff ++ [sid])
    | .error e =>
        let db1 := mark_attempt_processed db raw.id (some (pyStr e))
        process_loop validate rest db1 p (f + 1) aff

/-- StatsProcessor.process_raw_attempts, with the counters the loop
accumulates exposed: drain a batch of unprocessed raw attempts, process each
record, then recompute and re-cache the aggregate of every affected student
(deduplicated; the per-student recomputation and cache write are independent
across students, so the set iteration order of the source does not affect the
final state and insertion order is used here). -/
def process_raw_attempts_run (validate : Payload → Except PyExc Unit)
    (batch_size : Nat) (st : SysState) : SysState × Nat × Nat :=
  let raws := get_unprocessed_attempts st.db batch_size
  let r := process_loop validate raws st.db 0 0 []
  let final := r.2.2.2.foldl (fun acc sid =>
      let cs := calculate_and_save_aggregated acc.1 sid
      (cs.1, save_to_redis acc.2 sid cs.2)) (r.1, st.cache)
  ({ db := final.1, cache := final.2 }, r.2.1, r.2.2.1)

/-- StatsProcessor.process_raw_attempts as its callers see it: the coroutine
accumulates the counters in a local dict but ends without a return statement,
so its value is None; only the state effects remain. -/
def process_raw_attempts (validate : Payload → Except PyExc Unit)
    (batch_size : Nat) (st : SysState) : SysState × Option (Nat × Nat) :=
  ((process_raw_attempts_run validate batch_size st).1, none)

/-- Stable insertion for the raw_user_stats ORDER BY embedding. -/
def insert_us_by_received (x : RawUserStatsRow) :
    List RawUserStatsRow → List RawUserStatsRow
  | [] => [x]
  | y :: ys =>
      if received_le y.received_at x.received_at then y :: insert_us_by_received x ys
      else x :: y :: ys

/-- Stable sort of raw_user_stats rows by received_at with NULLs last. -/
def sort_us_by_received : List RawUserStatsRow → List RawUserStatsRow
  | [] => []
  | x :: xs => insert_us_by_received x (sort_us_by_received xs)

/-- SELECT_UNPROCESSED_USER_STATS: oldest first, bounded by the limit. -/
def get_unprocessed_user_stats (db : Db) (limit : Nat) : List RawUserStatsRow :=
  (sort_us_by_received (db.raw_user_stats.filter (fun q => !q.processed))).take limit

/-- MARK_RAW_USER_STATS_PROCESSED via
StatsRepository.mark_user_stats_processed: like the attempts variant, only the
processed flag is set; the error argument is never bound into the statement. -/
def mark_user_stats_processed (db : Db) (raw_id : Nat) (error : Option String) : Db :=
  { db with raw_user_stats := db.raw_user_stats.map (fun q =>
      if q.id = raw_id then { q with processed := true } else q) }

/-- The per-record loop of StatsProcessor.process_raw_user_stats: validate and
mark processed; this path writes no business table. -/
def process_user_stats_loop (validate : Blob → Except PyExc Unit) :
    List RawUserStatsRow → Db → Nat → Nat → Db × Nat × Nat
  | [], db, p, f => (db, p, f)
  | raw :: rest, db, p, f =>
    match validate raw.payload with
    | .ok _ =>
        process_user_stats_loop validate rest
          (mark_user_stats_processed db raw.id none) (p + 1) f
    | .error e =>
        process_user_stats_loop validate rest
          (mark_user_stats_processed db raw.id (some (pyStr e))) p (f + 1)

/-- StatsProcessor.process_raw_user_stats; this coroutine does return its
counters. -/
def process_raw_user_stats (validate : Blob → Except PyExc Unit)
    (batch_size : Nat) (st : SysState) : SysState × Nat × Nat :=
  let raws := get_unprocessed_user_stats st.db batch_size
  let r := process_user_stats_loop validate raws st.db 0 0
  ({ st with db := r.1 }, r.2.1, r.2.2)

/-- StatsWorker.process_raws: run the user-stats pass, log its returned
counters, run the attempts pass, log its returned value. The middle component
is the logged user-stats result and the last component the logged attempts
result. -/
def process_raws (vus : Blob → Except PyExc Unit) (vad : Payload → Except PyExc Unit)
    (st : SysState) : SysState × (Nat × Nat) × Option (Nat × Nat) :=
  let r1 := process_raw_user_stats vus 100 st
  let r2 := process_raw_attempts vad 100 r1.1
  (r2.1, (r1.2.1, r1.2.2), r2.2)

/-! ## Certificate scan (app/services/stats_processor.py together with
app/repositories/certificate.py and app/services/cert_service.py) -/

/-- A row of the GET_PASSING_ATTEMPTS_WITHOUT_CERTIFICATES join as the scan
loop reads it. -/
structure EligibleAttempt where
  id : UUIDv
  student_id : UUIDv
  course_id : Option UUIDv
  score : Option Rat
  max_score : Rat
  course_name : String
  deriving DecidableEq, Repr

/-- certificate_repository.get_passing_attempts_without_certificates: the body
of the source method is only its docstring, so the coroutine returns None
(modelled as none) although the docstring promises a list of rows; the
GET_PASSING_ATTEMPTS_WITHOUT_CERTIFICATES statement is never executed by it. -/
def get_passing_attempts_without_certificates (db : Db) :
    Option (List EligibleAttempt) :=
  none

/-- StatsProcessor.check_and_generate_certificates. Iterating the value of the
repository call raises TypeError when that value is None. The loop body is
embedded for completeness: the certificate issuance collaborator
(cert_service.generate_certificate, whose Keycloak, S3 and PDF collaborators
are out of scope) enters as the gen parameter returning the mutated database
and an outcome; after a successful generation the source calls
certificate_repo.create_certificate, a method the certificate repository does
not define (its method is named create), so that call would raise
AttributeError, be caught by the per-attempt handler and be counted as
failed. -/
def check_and_generate_certificates
    (gen : Db → EligibleAttempt → Db × Except PyExc (UUIDv × String))
    (db : Db) : Except PyExc (Db × Nat × Nat) :=
  match get_passing_attempts_without_certificates db with
  | none => .error (.typeErr "NoneType object is not iterable")
  | some attempts =>
      .ok (attempts.foldl (fun acc a =>
        let g := gen acc.1 a
        match g.2 with
        | .ok _ => (g.1, acc.2.1, acc.2.2 + 1)
        | .error _ => (g.1, acc.2.1, acc.2.2 + 1)) (db, 0, 0))

/-! ## Testing client (app/clients/testing_client.py) -/

/-- TestingClient.fetch_user_stats: the response payload is persisted to the
raw store in both branches; on validation failure the error is re-raised after
the insert, on success the validated payload is returned. -/
def fetch_user_stats (validate : Blob → Except PyExc Blob) (user_id : UUIDv)
    (resp : Blob) (db : Db) : Db × Except PyExc Blob :=
  match validate resp with
  | .error e => (insert_raw_user_stats db user_id resp, .error e)
  | .ok v => (insert_raw_user_stats db user_id resp, .ok v)

/-- The per-item persistence loop of TestingClient.fetch_user_attempts:
each validated item is upserted as a raw attempt keyed by its attempt_id;
UUID parsing of a missing or malformed attempt_id raises and aborts the loop
with the earlier inserts already committed. -/
def persist_attempt_items (user_id : UUIDv) :
    List Payload → Db → Db × Except PyExc Unit
  | [], db => (db, .ok ())
  | item :: rest, db =>
    match item.attempt_id with
    | none => (db, .error (.valueErr "badly formed hexadecimal UUID string"))
    | some ext =>
        persist_attempt_items user_id rest
          (insert_raw_attempt db ext (some user_id) item.test_id item)

/-- TestingClient.fetch_user_attempts: on validation failure the whole list
payload is persisted through insert_raw_user_stats as a fallback and the error
is re-raised; on success each item is persisted as a raw attempt. -/
def fetch_user_attempts (validate : List Payload → Except PyExc (List Payload))
    (user_id : UUIDv) (resp : List Payload) (db : Db) :
    Db × Except PyExc (List Payload) :=
  match validate resp with
  | .error e => (insert_raw_user_stats db user_id (.arr resp), .error e)
  | .ok validated =>
      let r := persist_attempt_items user_id validated db
      (r.1, r.2.map (fun _ => validated))

/-- TestingClient.fetch_attempt_detail: on success the validated payload is
persisted as a raw attempt keyed by the requested attempt id. In the
validation-failure handler the source evaluates
UUID(str(payload.get("student_id"))) before the insert: when the payload has
no parseable student_id that conversion raises ValueError, so nothing is
persisted and the ValueError replaces the validation error; only when the
student_id parses is the raw payload persisted and the validation error
re-raised. -/
def fetch_attempt_detail (validate : Payload → Except PyExc Payload)
    (attempt_id : UUIDv) (resp : Payload) (db : Db) : Db × Except PyExc Payload :=
  match validate resp with
  | .ok validated =>
      (insert_raw_attempt db attempt_id validated.student_id validated.test_id validated,
       .ok validated)
  | .error e =>
      match resp.student_id with
      | some sid => (insert_raw_attempt db attempt_id (some sid) none resp, .error e)
      | none => (db, .error (.valueErr "badly formed hexadecimal UUID string"))

/-! ## Contract manager (app/clients/validation/contract_manager.py) -/

/-- Opaque model of a JSON schema: the set of data values the compiled
validator rejects (data values are opaque naturals). -/
abbrev Schema := List Nat

/-- fastjsonschema.compile: deterministic compilation, modelled as the schema
itself serving as its own compiled validator. -/
def fastjsonschema_compile (s : Schema) : Schema := s

/-- The mutable state of a ContractManager: the configured cache bound, the
caching switch, and the insertion-ordered compiled-validator cache. -/
structure CMState where
  cache_size : Nat
  enable_caching : Bool
  validators_cache : List (String × Schema)
  deriving DecidableEq, Repr

/-- ContractManager._get_validator: with caching disabled always recompile;
otherwise return the cached validator on a hit, and on a miss compile, append
to the cache and, when the cache now exceeds cache_size, evict the oldest
entry (the first key in insertion order). -/
def get_validator (cm : CMState) (schema : Schema) (cache_key : String) :
    Schema × CMState :=
  if !cm.enable_caching then (fastjsonschema_compile schema, cm)
  else
    match cm.validators_cache.find? (fun e => e.1 = cache_key) with
    | some e => (e.2, cm)
    | none =>
        let v := fastjsonschema_compile schema
        let c1 := cm.validators_cache ++ [(cache_key, v)]
        let c2 := if cm.cache_size < c1.length then c1.tail else c1
        (v, { cm with validators_cache := c2 })

/-- ContractManager.validate: load the schema for the contract and version
(the schema store enters as the env parameter; the loader resolves explicit
versions by file lookup), obtain the compiled validator through the cache, and
run it; a rejected payload raises ContractValidationError while the compiled
entry stays cached. A missing schema surfaces as a wrapped validation error
without touching the validator cache. -/
def validate_contract (env : List ((String × String) × Schema)) (cm : CMState)
    (data : Nat) (contract_name : String) (version : String) :
    CMState × Except PyExc Nat :=
  match (env.find? (fun e => e.1 = (contract_name, version))).map (fun e => e.2) with
  | none => (cm, .error (.contractValidation "schema not found"))
  | some schema =>
      let cache_key := contract_name ++ ":" ++ version
      let r := get_validator cm schema cache_key
      if r.1.contains data then
        (r.2, .error (.contractValidation "contract validation failed"))
      else (r.2, .ok data)

/-! ## General list lemmas used by the batch-isolation proofs -/

theorem filter_length_split {α : Type} (l : List α) (p : α → Bool) :
    (l.filter p).length + (l.filter (fun a => !(p a))).length = l.length := by
  induction l with
  | nil => rfl
  | cons a t ih => cases h : p a <;> simp [List.filter_cons, h] <;> omega

theorem filter_length_le_one_of_nodup_map {α β : Type} [DecidableEq β]
    (l : List α) (f : α → β) (c : β) (h : (l.map f).Nodup) :
    (l.filter (fun a => f a = c)).length ≤ 1 := by
  induction l with
  | nil => simp
  | cons a t ih =>
      simp only [List.map_cons, List.nodup_cons] at h
      by_cases hfa : f a = c
      · have hnil : t.filter (fun b => decide (f b = c)) = [] := by
          rw [List.filter_eq_nil_iff]
          intro b hb
          simp only [decide_eq_true_eq]
          intro hbc
          exact h.1 (by rw [← hfa] at hbc; exact (List.mem_map.mpr ⟨b, hb, hbc⟩))
        simp [List.filter_cons, hfa, hnil]
      · simpa [List.filter_cons, hfa] using ih h.2

theorem one_le_filter_length {α : Type} {l : List α} {p : α → Bool} {a : α}
    (ha : a ∈ l) (hp : p a = true) : 1 ≤ (l.filter p).length :=
  List.length_pos.mpr (List.ne_nil_of_mem (List.mem_filter.mpr ⟨ha, hp⟩))

theorem filter_length_map_eq {α : Type} (l : List α) (u : α → α) (p : α → Bool)
    (h : ∀ a, p (u a) = p a) :
    ((l.map u).filter p).length = (l.filter p).length := by
  induction l with
  | nil => rfl
  | cons a t ih => cases hp : p a <;> simp [List.filter_cons, h, hp, ih]

theorem filter_length_mono {α : Type} (l : List α) (p q : α → Bool)
    (h : ∀ a ∈ l, p a = true → q a = true) :
    (l.filter p).length ≤ (l.filter q).length := by
  induction l with
  | nil => simp
  | cons a t ih =>
      have ht := ih (fun b hb => h b (List.mem_cons_of_mem _ hb))
      cases hp : p a
      · cases hq : q a <;> simp [List.filter_cons, hp, hq] <;> omega
      · have hq := h a (List.mem_cons_self _ _) hp
        simp [List.filter_cons, hp, hq]
        omega

/-! ## Frame lemmas: which tables each operation leaves untouched -/

theorem mark_attempt_processed_student_s (db : Db) (i : Nat) (e : Option String) :
    (mark_attempt_processed db i e).student_s = db.student_s := rfl

theorem mark_attempt_processed_business (db : Db) (i : Nat) (e : Option String) :
    (mark_attempt_processed db i e).test_attempt_b = db.test_attempt_b := rfl

theorem test_attempt_upsert_student_s (db : Db) (ps : UpsertParams) :
    (test_attempt_upsert db ps).student_s = db.student_s := rfl

theorem test_attempt_upsert_raw (db : Db) (ps : UpsertParams) :
    (test_attempt_upsert db ps).raw_attempts = db.raw_attempts := rfl

theorem calc_save_raw (db : Db) (sid : UUIDv) :
    (calculate_and_save_aggregated db sid).1.raw_attempts = db.raw_attempts := rfl

theorem calc_save_business (db : Db) (sid : UUIDv) :
    (calculate_and_save_aggregated db sid).1.test_attempt_b = db.test_attempt_b := rfl

theorem calc_save_student_s (db : Db) (sid : UUIDv) :
    (calculate_and_save_aggregated db sid).1.student_s = db.student_s := rfl

/-! ## Characterization of the process_raw_attempts loop -/

theorem process_loop_student_s (validate : Payload → Except PyExc Unit)
    (rows : List RawAttemptRow) (db : Db) (p f : Nat) (aff : List UUIDv) :
    (process_loop validate rows db p f aff).1.student_s = db.student_s := by
  induction rows generalizing db p f aff with
  | nil => rfl
  | cons r rest ih =>
      cases h : attempt_outcome validate db.student_s r.payload with
      | ok v =>
          obtain ⟨sid, ps⟩ := v
          simpa [process_loop, h] using
            ih (mark_attempt_processed (test_attempt_upsert db ps) r.id none)
              (p + 1) f (if aff.contains sid then aff else aff ++ [sid])
      | error e =>
          simpa [process_loop, h] using
            ih (mark_attempt_processed db r.id (some (pyStr e))) p (f + 1) aff

theorem isOk_ok {e a : Type} (v : a) : (Except.ok v : Except e a).isOk = true := rfl

theorem isOk_error {e a : Type} (x : e) : (Except.error x : Except e a).isOk = false := rfl

theorem process_loop_counts (validate : Payload → Except PyExc Unit)
    (rows : List RawAttemptRow) (db : Db) (p f : Nat) (aff : List UUIDv) :
    (process_loop validate rows db p f aff).2.1 =
      p + (rows.filter
        (fun r => (attempt_outcome validate db.student_s r.payload).isOk)).length ∧
    (process_loop validate rows db p f aff).2.2.1 =
      f + (rows.filter
        (fun r => !(attempt_outcome validate db.student_s r.payload).isOk)).length := by
  induction rows generalizing db p f aff with
  | nil => simp [process_loop]
  | cons r rest ih =>
      cases h : attempt_outcome validate db.student_s r.payload with
      | ok v =>
          obtain ⟨sid, ps⟩ := v
          have key := ih (mark_attempt_processed (test_attempt_upsert db ps) r.id none)
            (p + 1) f (if aff.contains sid then aff else aff ++ [sid])
          rw [show (mark_attempt_processed (test_attempt_upsert db ps) r.id none).student_s
              = db.student_s from rfl] at key
          constructor
          · rw [show process_loop validate (r :: rest) db p f aff =
                process_loop validate rest
                  (mark_attempt_processed (test_attempt_upsert db ps) r.id none)
                  (p + 1) f (if aff.contains sid then aff else aff ++ [sid]) by
              simp [process_loop, h]]
            rw [key.1]
            simp [List.filter_cons, h, isOk_ok, isOk_error]
            omega
          · rw [show process_loop validate (r :: rest) db p f aff =
                process_loop validate rest
                  (mark_attempt_processed (test_attempt_upsert db ps) r.id none)
                  (p + 1) f (if aff.contains sid then aff else aff ++ [sid]) by
              simp [process_loop, h]]
            rw [key.2]
            simp [List.filter_cons, h, isOk_ok, isOk_error]
      | error e =>
          have key := ih (mark_attempt_processed db r.id (some (pyStr e))) p (f + 1) aff
          rw [show (mark_attempt_processed db r.id (some (pyStr e))).student_s
              = db.student_s from rfl] at key
          constructor
          · rw [show process_loop validate (r :: rest) db p f aff =
                process_loop validate rest
                  (mark_attempt_processed db r.id (some (pyStr e))) p (f + 1) aff by
              simp [process_loop, h]]
            rw [key.1]
            simp [List.filter_cons, h, isOk_ok, isOk_error]
          · rw [show process_loop validate (r :: rest) db p f aff =
                process_loop validate rest
                  (mark_attempt_processed db r.id (some (pyStr e))) p (f + 1) aff by
              simp [process_loop, h]]
            rw [key.2]
            simp [List.filter_cons, h, isOk_ok, isOk_error]
            omega

theorem process_loop_raw (validate : Payload → Except PyExc Unit)
    (rows : List RawAttemptRow) (db : Db) (p f : Nat) (aff : List UUIDv) :
    (process_loop validate rows db p f aff).1.raw_attempts =
      db.raw_attempts.map (fun q =>
        if rows.any (fun r => r.id = q.id) then { q with processed := true } else q) := by
  induction rows generalizing db p f aff with
  | nil => simp [process_loop]
  | cons r rest ih =>
      have combine : ∀ (db1 : Db) (p1 f1 : Nat) (aff1 : List UUIDv),
          db1.raw_attempts = db.raw_attempts.map (fun q =>
            if q.id = r.id then { q with processed := true } else q) →
          (process_loop validate rest db1 p1 f1 aff1).1.raw_attempts =
            db.raw_attempts.map (fun q =>
              if (r :: rest).any (fun s => s.id = q.id) then { q with processed := true }
              else q) := by
        intro db1 p1 f1 aff1 hdb1
        rw [ih db1 p1 f1 aff1, hdb1, List.map_map]
        refine List.map_congr_left (fun q _ => ?_)
        by_cases hq : q.id = r.id
        · simp [Function.comp, hq]
        · have : ¬(r.id = q.id) := fun hh => hq (hh.symm)
          simp [Function.comp, hq, List.any_cons, this]
      cases h : attempt_outcome validate db.student_s r.payload with
      | ok v =>
          obtain ⟨sid, ps⟩ := v
          rw [show process_loop validate (r :: rest) db p f aff =
              process_loop validate rest
                (mark_attempt_processed (test_attempt_upsert db ps) r.id none)
                (p + 1) f (if aff.contains sid then aff else aff ++ [sid]) by
            simp [process_loop, h]]
          exact combine _ _ _ _ rfl
      | error e =>
          rw [show process_loop validate (r :: rest) db p f aff =
              process_loop validate rest
                (mark_attempt_processed db r.id (some (pyStr e))) p (f + 1) aff by
            simp [process_loop, h]]
          exact combine _ _ _ _ rfl

/-- One iteration of the loop as it acts on the canonical table alone. -/
def outc_step (validate : Payload → Except PyExc Unit) (studs : List UUIDv)
    (t : List TestAttemptRow) (r : RawAttemptRow) : List TestAttemptRow :=
  match attempt_outcome validate studs r.payload with
  | .ok (_, ps) => upsert_table t ps
  | .error _ => t

theorem process_loop_business (validate : Payload → Except PyExc Unit)
    (rows : List RawAttemptRow) (db : Db) (p f : Nat) (aff : List UUIDv) :
    (process_loop validate rows db p f aff).1.test_attempt_b =
      rows.foldl (outc_step validate db.student_s) db.test_attempt_b := by
  induction rows generalizing db p f aff with
  | nil => simp [process_loop]
  | cons r rest ih =>
      cases h : attempt_outcome validate db.student_s r.payload with
      | ok v =>
          obtain ⟨sid, ps⟩ := v
          rw [show process_loop validate (r :: rest) db p f aff =
              process_loop validate rest
                (mark_attempt_processed (test_attempt_upsert db ps) r.id none)
                (p + 1) f (if aff.contains sid then aff else aff ++ [sid]) by
            simp [process_loop, h]]
          rw [ih]
          simp [List.foldl_cons, outc_step, h]
          rfl
      | error e =>
          rw [show process_loop validate (r :: rest) db p f aff =
              process_loop validate rest
                (mark_attempt_processed db r.id (some (pyStr e))) p (f + 1) aff by
            simp [process_loop, h]]
          rw [ih]
          simp [List.foldl_cons, outc_step, h]
          rfl

/-- The row fields that TEST_ATTEMPT_UPSERT writes in both branches. -/
def row_matches (ps : UpsertParams) (q : TestAttemptRow) : Prop :=
  q.id = ps.id ∧ q.point = ps.point ∧ q.result = ps.result ∧
  q.completed = ps.completed ∧ q.passed = ps.passed ∧
  q.certificate_id = ps.certificate_id ∧ q.attempt_snapshot_s3 = ps.snapshot ∧
  q.attempt_version = ps.version ∧ q.meta = ps.meta

instance (ps : UpsertParams) (q : TestAttemptRow) : Decidable (row_matches ps q) := by
  unfold row_matches
  infer_instance

theorem upsert_table_puts (t : List TestAttemptRow) (ps : UpsertParams) :
    ∃ q ∈ upsert_table t ps, row_matches ps q := by
  unfold upsert_table
  by_cases h : t.any (fun q => q.id = ps.id) = true
  · simp only [h, if_true]
    obtain ⟨q0, hq0, hid⟩ := List.any_eq_true.mp h
    have hid' : q0.id = ps.id := by simpa using hid
    refine ⟨_, List.mem_map.mpr ⟨q0, hq0, rfl⟩, ?_⟩
    simp [hid', row_matches]
  · simp only [h, if_false]
    refine ⟨_, List.mem_append_right _ (List.mem_singleton.mpr rfl), ?_⟩
    simp [row_matches]

theorem upsert_table_keeps (t : List TestAttemptRow) (ps ps' : UpsertParams)
    (hne : ps'.id ≠ ps.id) (hex : ∃ q ∈ t, row_matches ps q) :
    ∃ q ∈ upsert_table t ps', row_matches ps q := by
  obtain ⟨q0, hq0, hm⟩ := hex
  unfold upsert_table
  by_cases h : t.any (fun q => q.id = ps'.id) = true
  · simp only [h, if_true]
    refine ⟨_, List.mem_map.mpr ⟨q0, hq0, rfl⟩, ?_⟩
    have hq0ne : ¬(q0.id = ps'.id) := by
      rw [hm.1]
      exact fun hh => hne hh.symm
    simpa [hq0ne] using hm
  · simp only [h, if_false]
    exact ⟨q0, List.mem_append_left _ hq0, hm⟩

theorem foldl_outc_keeps (validate : Payload → Except PyExc Unit)
    (studs : List UUIDv) (l : List RawAttemptRow) (t : List TestAttemptRow)
    (ps : UpsertParams) (hex : ∃ q ∈ t, row_matches ps q)
    (hne : ∀ r ∈ l, ∀ s' ps',
      attempt_outcome validate studs r.payload = .ok (s', ps') → ps'.id ≠ ps.id) :
    ∃ q ∈ l.foldl (outc_step validate studs) t, row_matches ps q := by
  induction l generalizing t with
  | nil => exact hex
  | cons r rest ih =>
      rw [List.foldl_cons]
      apply ih
      · cases h : attempt_outcome validate studs r.payload with
        | ok v =>
            obtain ⟨s', ps'⟩ := v
            have := upsert_table_keeps t ps ps' (hne r (List.mem_cons_self _ _) s' ps' h) hex
            simpa [outc_step, h] using this
        | error e => simpa [outc_step, h] using hex
      · intro r' hr' s' ps' h'
        exact hne r' (List.mem_cons_of_mem _ hr') s' ps' h'

theorem foldl_outc_upserts (validate : Payload → Except PyExc Unit)
    (studs : List UUIDv) (rows : List RawAttemptRow) (t : List TestAttemptRow)
    (r : RawAttemptRow) (sid : UUIDv) (ps : UpsertParams)
    (hr : r ∈ rows)
    (h : attempt_outcome validate studs r.payload = .ok (sid, ps))
    (hnodup : (rows.map (fun x => x.id)).Nodup)
    (hdist : ∀ a ∈ rows, ∀ b ∈ rows, a.id ≠ b.id → ∀ s1 p1 s2 p2,
      attempt_outcome validate studs a.payload = .ok (s1, p1) →
      attempt_outcome validate studs b.payload = .ok (s2, p2) → p1.id ≠ p2.id) :
    ∃ q ∈ rows.foldl (outc_step validate studs) t, row_matches ps q := by
  obtain ⟨l1, l2, hsplit⟩ := List.append_of_mem hr
  subst hsplit
  rw [List.foldl_append, List.foldl_cons]
  apply foldl_outc_keeps
  · rw [show outc_step validate studs (List.foldl (outc_step validate studs) t l1) r =
        upsert_table (List.foldl (outc_step validate studs) t l1) ps by
      simp [outc_step, h]]
    exact upsert_table_puts _ _
  · intro r' hr' s' ps' h'
    have hid : r'.id ≠ r.id := by
      intro hh
      have hn := hnodup
      rw [List.map_append, List.map_cons] at hn
      have h2 := (List.nodup_append.mp hn).2.1
      have h3 := (List.nodup_cons.mp h2).1
      exact h3 (hh ▸ List.mem_map.mpr ⟨r', hr', rfl⟩)
    exact hdist r' (List.mem_append_right _ (List.mem_cons_of_mem _ hr'))
      r (List.mem_append_right _ (List.mem_cons_self _ _)) hid s' ps' sid ps h' h

theorem recompute_fold_frame (aff : List UUIDv) (db : Db) (c : Cache) :
    (aff.foldl (fun acc sid =>
        let cs := calculate_and_save_aggregated acc.1 sid
        (cs.1, save_to_redis acc.2 sid cs.2)) (db, c)).1.raw_attempts = db.raw_attempts ∧
    (aff.foldl (fun acc sid =>
        let cs := calculate_and_save_aggregated acc.1 sid
        (cs.1, save_to_redis acc.2 sid cs.2)) (db, c)).1.test_attempt_b = db.test_attempt_b := by
  induction aff generalizing db c with
  | nil => exact ⟨rfl, rfl⟩
  | cons s rest ih =>
      rw [List.foldl_cons]
      have key := ih (calculate_and_save_aggregated db s).1
        (save_to_redis c s (calculate_and_save_aggregated db s).2)
      exact ⟨key.1.trans (calc_save_raw db s), key.2.trans (calc_save_business db s)⟩

theorem run_state_raw (validate : Payload → Except PyExc Unit) (bs : Nat) (st : SysState) :
    (process_raw_attempts_run validate bs st).1.db.raw_attempts =
      (process_loop validate (get_unprocessed_attempts st.db bs) st.db 0 0 []).1.raw_attempts := by
  unfold process_raw_attempts_run
  exact (recompute_fold_frame _ _ _).1

theorem run_state_business (validate : Payload → Except PyExc Unit) (bs : Nat) (st : SysState) :
    (process_raw_attempts_run validate bs st).1.db.test_attempt_b =
      (process_loop validate (get_unprocessed_attempts st.db bs) st.db 0 0 []).1.test_attempt_b := by
  unfold process_raw_attempts_run
  exact (recompute_fold_frame _ _ _).2

/-- C1: for every drained batch of raw attempts in which exactly one record
fails its processing step (contract validation, student-id parsing, the
student existence check, or the construction of the canonical upsert) and
every other record succeeds, the run marks every record of the batch
processed, reports counters of batch-size-minus-one processed and one failed,
and upserts each valid record into the canonical tests.test_attempt_b table
with the fields of its payload; the run is a total function (the per-record
handler catches every exception), so no exception propagates out of the batch
loop. The record ids of the batch are pairwise distinct (they are produced by
a serial column), as are the canonical attempt ids of distinct valid records. -/
theorem process_raw_attempts_batch_isolation
    (validate : Payload → Except PyExc Unit) (batch_size : Nat) (st : SysState)
    (bad : RawAttemptRow)
    (hbad_mem : bad ∈ get_unprocessed_attempts st.db batch_size)
    (hnodup : ((get_unprocessed_attempts st.db batch_size).map (fun r => r.id)).Nodup)
    (hbad : (attempt_outcome validate st.db.student_s bad.payload).isOk = false)
    (hok : ∀ r ∈ get_unprocessed_attempts st.db batch_size, r.id ≠ bad.id →
      (attempt_outcome validate st.db.student_s r.payload).isOk = true)
    (hdist : ∀ a ∈ get_unprocessed_attempts st.db batch_size,
      ∀ b ∈ get_unprocessed_attempts st.db batch_size, a.id ≠ b.id →
      ∀ s1 p1 s2 p2,
        attempt_outcome validate st.db.student_s a.payload = .ok (s1, p1) →
        attempt_outcome validate st.db.student_s b.payload = .ok (s2, p2) →
        p1.id ≠ p2.id) :
    (∀ r ∈ get_unprocessed_attempts st.db batch_size,
       ∀ q ∈ (process_raw_attempts validate batch_size st).1.db.raw_attempts,
         q.id = r.id → q.processed = true) ∧
    (process_raw_attempts_run validate batch_size st).2.1 =
      (get_unprocessed_attempts st.db batch_size).length - 1 ∧
    (process_raw_attempts_run validate batch_size st).2.2 = 1 ∧
    (∀ r ∈ get_unprocessed_attempts st.db batch_size, r.id ≠ bad.id →
       ∀ s ps, attempt_outcome validate st.db.student_s r.payload = .ok (s, ps) →
       ∃ q ∈ (process_raw_attempts validate batch_size st).1.db.test_attempt_b,
         row_matches ps q) := by
  have hraw : (process_raw_attempts validate batch_size st).1.db.raw_attempts =
      st.db.raw_attempts.map (fun q =>
        if (get_unprocessed_attempts st.db batch_size).any (fun r => r.id = q.id) then
          { q with processed := true }
        else q) := by
    show (process_raw_attempts_run validate batch_size st).1.db.raw_attempts = _
    rw [run_state_raw, process_loop_raw]
  have hbus : (process_raw_attempts validate batch_size st).1.db.test_attempt_b =
      (get_unprocessed_attempts st.db batch_size).foldl
        (outc_step validate st.db.student_s) st.db.test_attempt_b := by
    show (process_raw_attempts_run validate batch_size st).1.db.test_attempt_b = _
    rw [run_state_business, process_loop_business]
  have hb_pred : (fun r : RawAttemptRow =>
      !(attempt_outcome validate st.db.student_s r.payload).isOk) bad = true := by
    simp [hbad]
  have herr_le : ((get_unprocessed_attempts st.db batch_size).filter (fun r =>
      !(attempt_outcome validate st.db.student_s r.payload).isOk)).length ≤ 1 := by
    refine le_trans (filter_length_mono _ _ (fun r => decide (r.id = bad.id)) ?_) ?_
    · intro a ha hpa
      by_cases hid : a.id = bad.id
      · simp [hid]
      · have := hok a ha hid
        simp [this] at hpa
    · exact filter_length_le_one_of_nodup_map _ _ _ hnodup
  have herr1 : ((get_unprocessed_attempts st.db batch_size).filter (fun r =>
      !(attempt_outcome validate st.db.student_s r.payload).isOk)).length = 1 :=
    le_antisymm herr_le (one_le_filter_length hbad_mem hb_pred)
  have hsplit : ((get_unprocessed_attempts st.db batch_size).filter (fun r =>
        (attempt_outcome validate st.db.student_s r.payload).isOk)).length +
      ((get_unprocessed_attempts st.db batch_size).filter (fun r =>
        !(attempt_outcome validate st.db.student_s r.payload).isOk)).length =
      (get_unprocessed_attempts st.db batch_size).length := by
    simpa using filter_length_split (get_unprocessed_attempts st.db batch_size)
      (fun r => (attempt_outcome validate st.db.student_s r.payload).isOk)
  have hc := process_loop_counts validate (get_unprocessed_attempts st.db batch_size)
    st.db 0 0 []
  refine ⟨?_, ?_, ?_, ?_⟩
  · intro r hr q hq hid
    rw [hraw] at hq
    obtain ⟨q0, hq0, hq0eq⟩ := List.mem_map.mp hq
    by_cases hcon : (get_unprocessed_attempts st.db batch_size).any
        (fun s => s.id = q0.id) = true
    · rw [if_pos hcon] at hq0eq
      rw [← hq0eq]
    · rw [if_neg (by simpa using hcon)] at hq0eq
      subst hq0eq
      exact absurd (List.any_eq_true.mpr ⟨r, hr, by simp [← hid]⟩) hcon
  · show (process_loop validate (get_unprocessed_attempts st.db batch_size)
        st.db 0 0 []).2.1 = _
    rw [hc.1]
    omega
  · show (process_loop validate (get_unprocessed_attempts st.db batch_size)
        st.db 0 0 []).2.2.1 = _
    rw [hc.2]
    omega
  · intro r hr hrid s ps hps
    rw [hbus]
    exact foldl_outc_upserts validate st.db.student_s _ _ r s ps hr hps hnodup hdist

/-! ## Concrete sample values used by witnesses and counterexamples -/

/-- The empty database with one free serial id. -/
def emptyDb : Db :=
  { raw_user_stats := [], raw_attempts := [], test_attempt_b := []
    student_stats_aggregated := [], certificate_b := [], student_s := []
    next_id := 1 }

/-- A contract validator that accepts every payload. -/
def validateAccept : Payload → Except PyExc Unit := fun _ => .ok ()

/-- A well-formed attempt-detail payload for student 1. -/
def samplePayload : Payload :=
  { attempt_id := some 100, student_id := some 1, test_id := some 50
    date_of_attempt := some 10, point := some 80, result := some 7
    completed := some true, passed := some true, certificate_id := none
    attempt_snapshot_s3 := none, attempt_version := none, meta := some 3 }

/-- An attempt-detail payload with no parseable student reference. -/
def payloadNoStudent : Payload :=
  { attempt_id := some 101, student_id := none, test_id := some 50
    date_of_attempt := some 11, point := some 40, result := some 7
    completed := some true, passed := some false, certificate_id := none
    attempt_snapshot_s3 := none, attempt_version := none, meta := some 3 }

/-- Raw attempt carrying the valid payload. -/
def c1_raw_good : RawAttemptRow :=
  { id := 1, external_attempt_id := 11, student_id := some 1, test_id := some 50
    payload := samplePayload, received_at := some 1, processed := false
    processing_attempts := 0, error_message := none }

/-- Raw attempt carrying the payload without a student reference. -/
def c1_raw_bad : RawAttemptRow :=
  { id := 2, external_attempt_id := 12, student_id := none, test_id := some 50
    payload := payloadNoStudent, received_at := some 2, processed := false
    processing_attempts := 0, error_message := none }

/-- Database holding the two-record batch and student 1. -/
def c1_db : Db :=
  { emptyDb with raw_attempts := [c1_raw_good, c1_raw_bad], student_s := [1] }

/-- System state for the two-record batch run. -/
def c1_state : SysState := { db := c1_db, cache := [] }

/-- C1 witness: the batch-isolation theorem applied to a concrete two-record
batch whose second record has no student reference: both records end up
processed, the counters report one success and one failure, and the valid
record lands in the canonical table. -/
theorem process_raw_attempts_batch_isolation_witness :
    (∀ r ∈ get_unprocessed_attempts c1_state.db 100,
       ∀ q ∈ (process_raw_attempts validateAccept 100 c1_state).1.db.raw_attempts,
         q.id = r.id → q.processed = true) ∧
    (process_raw_attempts_run validateAccept 100 c1_state).2.1 =
      (get_unprocessed_attempts c1_state.db 100).length - 1 ∧
    (process_raw_attempts_run validateAccept 100 c1_state).2.2 = 1 ∧
    (∀ r ∈ get_unprocessed_attempts c1_state.db 100, r.id ≠ c1_raw_bad.id →
       ∀ s ps, attempt_outcome validateAccept c1_state.db.student_s r.payload = .ok (s, ps) →
       ∃ q ∈ (process_raw_attempts validateAccept 100 c1_state).1.db.test_attempt_b,
         row_matches ps q) :=
  process_raw_attempts_batch_isolation validateAccept 100 c1_state c1_raw_bad
    (by decide) (by decide) (by decide) (by decide)
    (by
      intro a ha b hb hne s1 p1 s2 p2 h1 h2
      have hbatch : get_unprocessed_attempts c1_state.db 100 = [c1_raw_good, c1_raw_bad] := by
        decide
      have hbadout : attempt_outcome validateAccept c1_state.db.student_s c1_raw_bad.payload
          = Except.error (PyExc.valueErr "badly formed UUID") := rfl
      rw [hbatch] at ha hb
      simp only [List.mem_cons, List.not_mem_nil, or_false] at ha hb
      rcases ha with rfl | rfl
      · rcases hb with rfl | rfl
        · exact absurd rfl hne
        · rw [hbadout] at h2
          cases h2
      · rw [hbadout] at h1
        cases h1)

/-- System state with a single failing raw attempt for the error-message run. -/
def c2_state : SysState :=
  { db := { emptyDb with raw_attempts := [c1_raw_bad], student_s := [1] }, cache := [] }

/-- C2 (code bug evaluation): processing a batch whose single record fails its
step (no student reference) marks the raw record processed but leaves its
error_message NULL: MARK_RAW_ATTEMPT_PROCESSED never binds the error argument
that the processor passes, so the failure message is not recorded. -/
theorem mark_attempt_processed_drops_error :
    (attempt_outcome validateAccept c2_state.db.student_s c1_raw_bad.payload).isOk
      = false ∧
    ∀ q ∈ (process_raw_attempts validateAccept 100 c2_state).1.db.raw_attempts,
      q.processed = true ∧ q.error_message = none := by decide

/-- Already-processed raw attempt whose re-fetch is examined. -/
def c3_row : RawAttemptRow :=
  { id := 1, external_attempt_id := 10, student_id := some 1, test_id := some 50
    payload := samplePayload, received_at := some 5, processed := true
    processing_attempts := 3, error_message := none }

/-- Database holding the already-processed raw attempt. -/
def c3_db : Db := { emptyDb with raw_attempts := [c3_row], student_s := [1] }

/-- C3 counterexample: the row for external attempt 10 is processed before the
re-fetch, and after upserting the same external_attempt_id again its processed
flag is false: the ON CONFLICT clause sets processed from the excluded row
(always false from insert_raw_attempt) instead of preserving the prior flag. -/
theorem insert_raw_attempt_resets_processed :
    c3_row.processed = true ∧
    ∀ q ∈ (insert_raw_attempt c3_db 10 (some 1) (some 50) payloadNoStudent).raw_attempts,
      q.external_attempt_id = 10 → q.processed = false := by decide

/-- C3 (amended): upserting an existing external_attempt_id overwrites the
processed flag with the value supplied by the new call, which
insert_raw_attempt fixes at false, so a re-fetch of an already-processed
attempt resets processed to false; the row identity and the
processing_attempts counter are preserved by the upsert. -/
theorem insert_raw_attempt_overwrites_processed
    (db : Db) (ext : UUIDv) (sid tid : Option UUIDv) (p : Payload)
    (hex : ∃ q ∈ db.raw_attempts, q.external_attempt_id = ext) :
    ∀ q ∈ (insert_raw_attempt db ext sid tid p).raw_attempts,
      q.external_attempt_id = ext →
      q.processed = false ∧
      ∃ q0 ∈ db.raw_attempts, q0.external_attempt_id = ext ∧
        q.id = q0.id ∧ q.processing_attempts = q0.processing_attempts := by
  intro q hq hqe
  have hany : db.raw_attempts.any
      (fun r => r.external_attempt_id = ext) = true := by
    obtain ⟨q0, hq0, he⟩ := hex
    exact List.any_eq_true.mpr ⟨q0, hq0, by simp [he]⟩
  unfold insert_raw_attempt insert_raw_attempt_sql at hq
  simp only [hany, if_true] at hq
  obtain ⟨q0, hq0, hq0eq⟩ := List.mem_map.mp hq
  by_cases h0 : q0.external_attempt_id = ext
  · rw [if_pos h0] at hq0eq
    refine ⟨by rw [← hq0eq], q0, hq0, h0, by rw [← hq0eq], by rw [← hq0eq]⟩
  · rw [if_neg h0] at hq0eq
    subst hq0eq
    exact absurd hqe h0

/-- C3 amended-claim witness at the concrete already-processed row. -/
theorem insert_raw_attempt_overwrites_processed_witness :
    c3_row ∈ c3_db.raw_attempts ∧ c3_row.external_attempt_id = 10 ∧
    (∀ q ∈ (insert_raw_attempt c3_db 10 (some 1) (some 50) payloadNoStudent).raw_attempts,
      q.external_attempt_id = 10 →
      q.processed = false ∧
      ∃ q0 ∈ c3_db.raw_attempts, q0.external_attempt_id = 10 ∧
        q.id = q0.id ∧ q.processing_attempts = q0.processing_attempts) :=
  ⟨by decide, by decide,
   insert_raw_attempt_overwrites_processed c3_db 10 (some 1) (some 50) payloadNoStudent
     ⟨c3_row, by decide, by decide⟩⟩

/-- C4: upserting the same external_attempt_id twice (any metadata, any two
payloads) leaves exactly one row for that id when at most one existed before
(external_attempt_id is a unique key); the row carries the payload and the
received_at of the second call (insert_raw_attempt always binds received_at
NULL) and its processing_attempts counter after the second call equals its
value before the second call. -/
theorem insert_raw_attempt_rows_true (db : Db) (ext : UUIDv)
    (s t : Option UUIDv) (p : Payload)
    (hany : db.raw_attempts.any (fun r => r.external_attempt_id = ext) = true) :
    (insert_raw_attempt db ext s t p).raw_attempts =
      db.raw_attempts.map (fun q =>
        if q.external_attempt_id = ext then
          { q with payload := p, received_at := none, processed := false }
        else q) := by
  unfold insert_raw_attempt insert_raw_attempt_sql
  simp [hany]

theorem insert_raw_attempt_rows_false (db : Db) (ext : UUIDv)
    (s t : Option UUIDv) (p : Payload)
    (hany : db.raw_attempts.any (fun r => r.external_attempt_id = ext) = false) :
    (insert_raw_attempt db ext s t p).raw_attempts =
      db.raw_attempts ++
        [{ id := db.next_id, external_attempt_id := ext, student_id := s
           test_id := t, payload := p, received_at := none, processed := false
           processing_attempts := 0, error_message := none }] := by
  unfold insert_raw_attempt insert_raw_attempt_sql
  simp [hany]

theorem insert_raw_attempt_count (db : Db) (ext : UUIDv)
    (s t : Option UUIDv) (p : Payload)
    (huniq : (db.raw_attempts.filter
      (fun q => q.external_attempt_id = ext)).length ≤ 1) :
    ((insert_raw_attempt db ext s t p).raw_attempts.filter
      (fun q => q.external_attempt_id = ext)).length = 1 := by
  cases hany : db.raw_attempts.any (fun r => r.external_attempt_id = ext) with
  | true =>
      rw [insert_raw_attempt_rows_true db ext s t p hany]
      obtain ⟨q0, hq0, he⟩ := List.any_eq_true.mp hany
      have hge : 1 ≤ (db.raw_attempts.filter
          (fun q => q.external_attempt_id = ext)).length :=
        one_le_filter_length hq0 (by simpa using he)
      have heq : ((db.raw_attempts.map (fun q =>
          if q.external_attempt_id = ext then
            { q with payload := p, received_at := none, processed := false }
          else q)).filter (fun q => q.external_attempt_id = ext)).length =
          (db.raw_attempts.filter (fun q => q.external_attempt_id = ext)).length := by
        refine filter_length_map_eq _ _ _ (fun a => ?_)
        by_cases ha : a.external_attempt_id = ext <;> simp [ha]
      omega
  | false =>
      rw [insert_raw_attempt_rows_false db ext s t p hany]
      have hnil : db.raw_attempts.filter (fun q => q.external_attempt_id = ext) = [] := by
        rw [List.filter_eq_nil_iff]
        intro a ha
        simp only [decide_eq_true_eq]
        intro he
        have hcontra : db.raw_attempts.any
            (fun r => r.external_attempt_id = ext) = true :=
          List.any_eq_true.mpr ⟨a, ha, by simp [he]⟩
        rw [hany] at hcontra
        cases hcontra
      rw [List.filter_append, hnil]
      simp

theorem insert_raw_attempt_twice
    (db : Db) (ext : UUIDv) (s1 s2 t1 t2 : Option UUIDv) (p1 p2 : Payload)
    (huniq : (db.raw_attempts.filter
      (fun q => q.external_attempt_id = ext)).length ≤ 1) :
    ((insert_raw_attempt (insert_raw_attempt db ext s1 t1 p1) ext s2 t2 p2).raw_attempts.filter
      (fun q => q.external_attempt_id = ext)).length = 1 ∧
    ∀ q ∈ (insert_raw_attempt (insert_raw_attempt db ext s1 t1 p1) ext s2 t2 p2).raw_attempts,
      q.external_attempt_id = ext →
      q.payload = p2 ∧ q.received_at = none ∧
      ∃ q1 ∈ (insert_raw_attempt db ext s1 t1 p1).raw_attempts,
        q1.external_attempt_id = ext ∧
        q.processing_attempts = q1.processing_attempts := by
  have hone : ((insert_raw_attempt db ext s1 t1 p1).raw_attempts.filter
      (fun q => q.external_attempt_id = ext)).length = 1 :=
    insert_raw_attempt_count db ext s1 t1 p1 huniq
  have hany1 : (insert_raw_attempt db ext s1 t1 p1).raw_attempts.any
      (fun r => r.external_attempt_id = ext) = true := by
    rcases hf : (insert_raw_attempt db ext s1 t1 p1).raw_attempts.filter
        (fun q => q.external_attempt_id = ext) with _ | ⟨q0, rest⟩
    · rw [hf] at hone
      simp at hone
    · have hq0 : q0 ∈ (insert_raw_attempt db ext s1 t1 p1).raw_attempts.filter
          (fun q => q.external_attempt_id = ext) := by
        rw [hf]
        exact List.mem_cons_self _ _
      obtain ⟨hmem, hpred⟩ := List.mem_filter.mp hq0
      exact List.any_eq_true.mpr ⟨q0, hmem, hpred⟩
  constructor
  · exact insert_raw_attempt_count _ ext s2 t2 p2 (le_of_eq hone)
  · intro q hq hqe
    rw [insert_raw_attempt_rows_true _ ext s2 t2 p2 hany1] at hq
    obtain ⟨q0, hq0, hq0eq⟩ := List.mem_map.mp hq
    by_cases h0 : q0.external_attempt_id = ext
    · rw [if_pos h0] at hq0eq
      exact ⟨by rw [← hq0eq], by rw [← hq0eq], q0, hq0, h0, by rw [← hq0eq]⟩
    · rw [if_neg h0] at hq0eq
      subst hq0eq
      exact absurd hqe h0

/-- C4 witness: the double upsert applied to the concrete database that
already holds one row for external attempt 10. -/
theorem insert_raw_attempt_twice_witness :
    ((insert_raw_attempt (insert_raw_attempt c3_db 10 (some 1) (some 50) samplePayload)
        10 (some 1) (some 50) payloadNoStudent).raw_attempts.filter
      (fun q => q.external_attempt_id = 10)).length = 1 ∧
    ∀ q ∈ (insert_raw_attempt (insert_raw_attempt c3_db 10 (some 1) (some 50) samplePayload)
        10 (some 1) (some 50) payloadNoStudent).raw_attempts,
      q.external_attempt_id = 10 →
      q.payload = payloadNoStudent ∧ q.received_at = none ∧
      ∃ q1 ∈ (insert_raw_attempt c3_db 10 (some 1) (some 50) samplePayload).raw_attempts,
        q1.external_attempt_id = 10 ∧
        q.processing_attempts = q1.processing_attempts :=
  insert_raw_attempt_twice c3_db 10 (some 1) (some 1) (some 50) (some 50)
    samplePayload payloadNoStudent (by decide)

/-- C10: process_raw_attempts returns None for every contract validator,
batch size and starting state, despite its declared counters dict, and the
worker's process_raws therefore logs None as the attempts result (its
user-stats pass, by contrast, does return counters). No caller can observe
the batch outcome. -/
theorem process_raw_attempts_returns_none
    (vus : Blob → Except PyExc Unit) (vad : Payload → Except PyExc Unit)
    (batch_size : Nat) (st : SysState) :
    (process_raw_attempts vad batch_size st).2 = none ∧
    (process_raws vus vad st).2.2 = none :=
  ⟨rfl, rfl⟩

/-- C8 (code bug evaluation): for every certificate-issuance collaborator and
every database state the global certificate scan raises TypeError: the
repository coroutine it iterates returns None because its body is only a
docstring, so no run of the scan can generate a certificate or consult the
eligibility query at all, let alone skip already-certified attempts. -/
theorem check_and_generate_certificates_always_raises
    (gen : Db → EligibleAttempt → Db × Except PyExc (UUIDv × String)) (db : Db) :
    check_and_generate_certificates gen db =
      .error (.typeErr "NoneType object is not iterable") :=
  rfl

/-- Attempt-detail contract validator that requires a parseable student_id
(the v1 attempt_detail contract lists student_id among its expected fields). -/
def validate_detail_requires_student : Payload → Except PyExc Payload := fun p =>
  match p.student_id with
  | none => .error (.contractValidation "student_id is a required property")
  | some _ => .ok p

/-- C7 (code bug evaluation): at a concrete attempt-detail response without a
parseable student_id, contract validation fails, yet the fetch leaves the
database untouched and surfaces the ValueError raised by the UUID conversion
inside the failure handler instead of re-raising the validation error: the
payload is silently dropped. -/
theorem fetch_attempt_detail_drops_payload :
    (validate_detail_requires_student payloadNoStudent).isOk = false ∧
    (fetch_attempt_detail validate_detail_requires_student 101 payloadNoStudent emptyDb).1
      = emptyDb ∧
    (fetch_attempt_detail validate_detail_requires_student 101 payloadNoStudent emptyDb).2
      = .error (.valueErr "badly formed hexadecimal UUID string") :=
  ⟨rfl, rfl, rfl⟩

/-- C6: the full recompute returns, for every database and student, the
student-id tag, the count of the student's canonical attempts, the counts of
attempts with passed true and passed false, the mean of the present point
values (0 when there are none), the number of distinct non-NULL test ids and
the maximum date_of_attempt; when the student has no canonical attempts every
counter is zero, the average is 0.0 and the last-attempt date is None. -/
theorem calculate_and_save_aggregated_spec (db : Db) (sid : UUIDv) :
    (calculate_and_save_aggregated db sid).2.student_id = sid ∧
    (calculate_and_save_aggregated db sid).2.total_attempts =
      (db.test_attempt_b.filter (fun a => a.student_id = sid)).length ∧
    (calculate_and_save_aggregated db sid).2.passed_attempts =
      ((db.test_attempt_b.filter (fun a => a.student_id = sid)).filter
        (fun a => a.passed = some true)).length ∧
    (calculate_and_save_aggregated db sid).2.failed_attempts =
      ((db.test_attempt_b.filter (fun a => a.student_id = sid)).filter
        (fun a => a.passed = some false)).length ∧
    (calculate_and_save_aggregated db sid).2.avg_score =
      (if ((db.test_attempt_b.filter (fun a => a.student_id = sid)).filterMap
            (fun a => a.point)).isEmpty then 0
       else ((db.test_attempt_b.filter (fun a => a.student_id = sid)).filterMap
              (fun a => a.point)).sum /
            (((db.test_attempt_b.filter (fun a => a.student_id = sid)).filterMap
              (fun a => a.point)).length : Rat)) ∧
    (calculate_and_save_aggregated db sid).2.total_tests_taken =
      ((db.test_attempt_b.filter (fun a => a.student_id = sid)).filterMap
        (fun a => a.test_id)).dedup.length ∧
    (calculate_and_save_aggregated db sid).2.last_attempt_at =
      max_date ((db.test_attempt_b.filter (fun a => a.student_id = sid)).filterMap
        (fun a => a.date_of_attempt)) ∧
    (db.test_attempt_b.filter (fun a => a.student_id = sid) = [] →
      (calculate_and_save_aggregated db sid).2 =
        { student_id := sid, total_attempts := 0, passed_attempts := 0
          failed_attempts := 0, avg_score := 0, total_tests_taken := 0
          last_attempt_at := none }) := by
  by_cases h : (db.test_attempt_b.filter (fun a => a.student_id = sid)).isEmpty
  · have hnil : db.test_attempt_b.filter (fun a => a.student_id = sid) = [] :=
      List.isEmpty_iff.mp h
    have hc : student_stats_calculate db sid = none := by
      unfold student_stats_calculate
      simp [h]
    unfold calculate_and_save_aggregated
    rw [hc]
    simp [hnil, max_date]
  · have hc : student_stats_calculate db sid = some
        { total_attempts := (db.test_attempt_b.filter (fun a => a.student_id = sid)).length
          passed_attempts := ((db.test_attempt_b.filter (fun a => a.student_id = sid)).filter
            (fun a => a.passed = some true)).length
          failed_attempts := ((db.test_attempt_b.filter (fun a => a.student_id = sid)).filter
            (fun a => a.passed = some false)).length
          avg_score := avg_points ((db.test_attempt_b.filter
            (fun a => a.student_id = sid)).filterMap (fun a => a.point))
          total_tests_taken := ((db.test_attempt_b.filter
            (fun a => a.student_id = sid)).filterMap (fun a => a.test_id)).dedup.length
          last_attempt_at := max_date ((db.test_attempt_b.filter
            (fun a => a.student_id = sid)).filterMap (fun a => a.date_of_attempt)) } := by
      unfold student_stats_calculate
      simp [h]
    have hne : ¬(db.test_attempt_b.filter (fun a => a.student_id = sid) = []) := by
      intro hnil
      rw [hnil] at h
      exact h rfl
    unfold calculate_and_save_aggregated
    rw [hc]
    exact ⟨rfl, rfl, rfl, rfl, by simp [avg_points], rfl, rfl, fun hnil => absurd hnil hne⟩

/-- Canonical attempts for the aggregate-arithmetic witness: student 1 has a
pass at 90, a fail at 40 and a pass at 70 over two distinct tests. -/
def c6_db : Db :=
  { emptyDb with
    student_s := [1]
    test_attempt_b :=
      [{ id := 100, student_id := 1, test_id := some 50, date_of_attempt := some 10
         point := some 90, result := 0, completed := true, passed := some true
         certificate_id := none, attempt_snapshot_s3 := none, attempt_version := none
         meta := 0 },
       { id := 101, student_id := 1, test_id := some 51, date_of_attempt := some 11
         point := some 40, result := 0, completed := true, passed := some false
         certificate_id := none, attempt_snapshot_s3 := none, attempt_version := none
         meta := 0 },
       { id := 102, student_id := 1, test_id := some 50, date_of_attempt := some 12
         point := some 70, result := 0, completed := true, passed := some true
         certificate_id := none, attempt_snapshot_s3 := none, attempt_version := none
         meta := 0 }] }

/-- C6 witness: the recompute formulas evaluated on the three concrete
attempts give 3 total, 2 passed, 1 failed, average 200/3 and 2 distinct
tests. -/
theorem calculate_and_save_aggregated_spec_witness :
    ((calculate_and_save_aggregated c6_db 1).2.total_attempts = 3 ∧
     (calculate_and_save_aggregated c6_db 1).2.passed_attempts = 2 ∧
     (calculate_and_save_aggregated c6_db 1).2.failed_attempts = 1 ∧
     (calculate_and_save_aggregated c6_db 1).2.avg_score = 200 / 3 ∧
     (calculate_and_save_aggregated c6_db 1).2.total_tests_taken = 2 ∧
     (calculate_and_save_aggregated c6_db 1).2.last_attempt_at = some 12) ∧
    (calculate_and_save_aggregated c6_db 1).2.student_id = 1 :=
  ⟨by
    refine ⟨by decide, by decide, by decide, ?_, by decide, by decide⟩
    have havg : (calculate_and_save_aggregated c6_db 1).2.avg_score =
        ((90 : Rat) + (40 + (70 + 0))) / ((3 : Nat) : Rat) := rfl
    rw [havg]
    norm_num,
  (calculate_and_save_aggregated_spec c6_db 1).1⟩

/-! ## Cache behaviour lemmas for the tiered read path -/

theorem get_from_redis_invalidate (c : Cache) (sid : UUIDv) :
    get_from_redis (invalidate_cache c sid) sid = none := by
  induction c with
  | nil => rfl
  | cons e t ih =>
      by_cases h : e.1 = sid
      · simpa [invalidate_cache, get_from_redis, List.filter_cons, h] using ih
      · simpa [invalidate_cache, get_from_redis, List.filter_cons, List.find?_cons, h]
          using ih

theorem get_from_redis_save (c : Cache) (sid : UUIDv) (v : StatsDict) :
    get_from_redis (save_to_redis c sid v) sid = some v := by
  induction c with
  | nil => simp [save_to_redis, get_from_redis, List.find?_cons]
  | cons e t ih =>
      by_cases h : e.1 = sid
      · have hany : (e :: t).any (fun x => x.1 = sid) = true :=
          List.any_eq_true.mpr ⟨e, List.mem_cons_self _ _, by simp [h]⟩
        simp [save_to_redis, get_from_redis, hany, List.find?_cons, h]
      · cases ht : t.any (fun x => x.1 = sid) with
        | true =>
            have hany : (e :: t).any (fun x => x.1 = sid) = true := by
              simp [List.any_cons, ht]
            simpa [save_to_redis, get_from_redis, hany, ht, List.find?_cons, h] using ih
        | false =>
            have hany : (e :: t).any (fun x => x.1 = sid) = false := by
              simp [List.any_cons, h, ht]
            simpa [save_to_redis, get_from_redis, hany, ht, List.find?_cons, h] using ih

/-- C5 (amended): invalidate deletes only the cache key and leaves the durable
tables alone; the next getUserStats is never served by the cache: it returns
the durable aggregate when a row exists for the student (a value that can be
stale with respect to the canonical table) and otherwise a value equal to the
direct recompute from the canonical table; in either case an immediately
subsequent getUserStats is a cache hit that returns the same value and the
same state without querying the canonical table. -/
theorem get_user_stats_after_invalidate (st : SysState) (sid : UUIDv) :
    ({ st with cache := invalidate_cache st.cache sid } : SysState).db = st.db ∧
    (get_user_stats { st with cache := invalidate_cache st.cache sid } sid).2.2 ≠
      Tier.cacheHit ∧
    (get_from_db st.db sid = none →
      (get_user_stats { st with cache := invalidate_cache st.cache sid } sid).2.1 =
        (calculate_and_save_aggregated st.db sid).2 ∧
      (get_user_stats { st with cache := invalidate_cache st.cache sid } sid).2.2 =
        Tier.recomputed) ∧
    (∀ s, get_from_db st.db sid = some s →
      (get_user_stats { st with cache := invalidate_cache st.cache sid } sid).2.1 = s ∧
      (get_user_stats { st with cache := invalidate_cache st.cache sid } sid).2.2 =
        Tier.aggHit) ∧
    (get_user_stats
        ((get_user_stats { st with cache := invalidate_cache st.cache sid } sid).1) sid).2.1 =
      (get_user_stats { st with cache := invalidate_cache st.cache sid } sid).2.1 ∧
    (get_user_stats
        ((get_user_stats { st with cache := invalidate_cache st.cache sid } sid).1) sid).2.2 =
      Tier.cacheHit ∧
    (get_user_stats
        ((get_user_stats { st with cache := invalidate_cache st.cache sid } sid).1) sid).1 =
      (get_user_stats { st with cache := invalidate_cache st.cache sid } sid).1 := by
  have hmiss : get_from_redis
      (({ st with cache := invalidate_cache st.cache sid } : SysState).cache) sid = none :=
    get_from_redis_invalidate st.cache sid
  cases hdb : get_from_db st.db sid with
  | none =>
      have h1 : get_user_stats { st with cache := invalidate_cache st.cache sid } sid =
          ({ db := (calculate_and_save_aggregated st.db sid).1
             cache := save_to_redis (invalidate_cache st.cache sid) sid
               (calculate_and_save_aggregated st.db sid).2 },
           (calculate_and_save_aggregated st.db sid).2, Tier.recomputed) := by
        unfold get_user_stats
        rw [hmiss]
        rw [show get_from_db ({ st with cache := invalidate_cache st.cache sid } : SysState).db
            sid = none from hdb]
      have h2 : get_user_stats
          ((get_user_stats { st with cache := invalidate_cache st.cache sid } sid).1) sid =
          ((get_user_stats { st with cache := invalidate_cache st.cache sid } sid).1,
           (calculate_and_save_aggregated st.db sid).2, Tier.cacheHit) := by
        rw [h1]
        unfold get_user_stats
        rw [show get_from_redis
            (save_to_redis (invalidate_cache st.cache sid) sid
              (calculate_and_save_aggregated st.db sid).2) sid =
            some (calculate_and_save_aggregated st.db sid).2 from
          get_from_redis_save _ _ _]
      refine ⟨rfl, ?_, ?_, ?_, ?_, ?_, ?_⟩
      · intro hcon
        rw [h1] at hcon
        exact Tier.noConfusion hcon
      · intro _
        exact ⟨by rw [h1], by rw [h1]⟩
      · intro s hs
        exact Option.noConfusion hs
      · rw [h2, h1]
      · rw [h2]
      · rw [h2]
  | some s0 =>
      have h1 : get_user_stats { st with cache := invalidate_cache st.cache sid } sid =
          ({ st with cache := save_to_redis (invalidate_cache st.cache sid) sid s0 },
           s0, Tier.aggHit) := by
        unfold get_user_stats
        rw [hmiss]
        rw [show get_from_db ({ st with cache := invalidate_cache st.cache sid } : SysState).db
            sid = some s0 from hdb]
      have h2 : get_user_stats
          ((get_user_stats { st with cache := invalidate_cache st.cache sid } sid).1) sid =
          ((get_user_stats { st with cache := invalidate_cache st.cache sid } sid).1,
           s0, Tier.cacheHit) := by
        rw [h1]
        unfold get_user_stats
        rw [show get_from_redis (save_to_redis (invalidate_cache st.cache sid) sid s0) sid =
            some s0 from get_from_redis_save _ _ _]
      refine ⟨rfl, ?_, ?_, ?_, ?_, ?_, ?_⟩
      · intro hcon
        rw [h1] at hcon
        exact Tier.noConfusion hcon
      · intro hn
        exact Option.noConfusion hn
      · intro s hs
        have hss : s0 = s := Option.some.inj hs
        subst hss
        exact ⟨by rw [h1], by rw [h1]⟩
      · rw [h2, h1]
      · rw [h2]
      · rw [h2]

/-- Canonical upsert parameters for the first attempt of student 1. -/
def c5_ups1 : UpsertParams :=
  { id := 100, student_id := 1, test_id := some 50, date_of_attempt := some 10
    point := some 80, result := 0, completed := true, passed := some true
    certificate_id := none, snapshot := none, version := none, meta := 0 }

/-- Canonical upsert parameters for the second attempt of student 1. -/
def c5_ups2 : UpsertParams :=
  { c5_ups1 with id := 101, date_of_attempt := some 11, point := some 60
                 passed := some false }

/-- Database where the aggregate was recomputed after the first canonical
attempt and a second attempt was upserted afterwards: the durable aggregate
row is stale with respect to the canonical table. -/
def c5_db : Db :=
  test_attempt_upsert
    ((calculate_and_save_aggregated
        (test_attempt_upsert { emptyDb with student_s := [1] } c5_ups1) 1).1)
    c5_ups2

/-- System state over the stale aggregate. -/
def c5_state : SysState := { db := c5_db, cache := [] }

/-- C5 counterexample: after invalidate, the next getUserStats returns the
stale durable aggregate (1 total attempt) while the direct recompute from the
canonical table gives 2, so the returned value does not equal a direct
recompute. -/
theorem get_user_stats_after_invalidate_stale :
    (get_user_stats { c5_state with cache := invalidate_cache c5_state.cache 1 } 1).2.1.total_attempts = 1 ∧
    (calculate_and_save_aggregated c5_state.db 1).2.total_attempts = 2 ∧
    (get_user_stats { c5_state with cache := invalidate_cache c5_state.cache 1 } 1).2.1 ≠
      (calculate_and_save_aggregated c5_state.db 1).2 := by
  refine ⟨by decide, by decide, fun h => ?_⟩
  have := congrArg StatsDict.total_attempts h
  revert this
  decide

/-- C5 amended-claim witness: the theorem applied to the concrete stale-state
scenario; the durable-aggregate branch fires there. -/
theorem get_user_stats_after_invalidate_witness :
    (({ c5_state with cache := invalidate_cache c5_state.cache 1 } : SysState).db
        = c5_state.db ∧
      (get_user_stats { c5_state with cache := invalidate_cache c5_state.cache 1 } 1).2.2 ≠
        Tier.cacheHit ∧
      (get_from_db c5_state.db 1 = none →
        (get_user_stats { c5_state with cache := invalidate_cache c5_state.cache 1 } 1).2.1 =
          (calculate_and_save_aggregated c5_state.db 1).2 ∧
        (get_user_stats { c5_state with cache := invalidate_cache c5_state.cache 1 } 1).2.2 =
          Tier.recomputed) ∧
      (∀ s, get_from_db c5_state.db 1 = some s →
        (get_user_stats { c5_state with cache := invalidate_cache c5_state.cache 1 } 1).2.1 = s ∧
        (get_user_stats { c5_state with cache := invalidate_cache c5_state.cache 1 } 1).2.2 =
          Tier.aggHit) ∧
      (get_user_stats
          ((get_user_stats { c5_state with cache := invalidate_cache c5_state.cache 1 } 1).1) 1).2.1 =
        (get_user_stats { c5_state with cache := invalidate_cache c5_state.cache 1 } 1).2.1 ∧
      (get_user_stats
          ((get_user_stats { c5_state with cache := invalidate_cache c5_state.cache 1 } 1).1) 1).2.2 =
        Tier.cacheHit ∧
      (get_user_stats
          ((get_user_stats { c5_state with cache := invalidate_cache c5_state.cache 1 } 1).1) 1).1 =
        (get_user_stats { c5_state with cache := invalidate_cache c5_state.cache 1 } 1).1) ∧
    (get_user_stats { c5_state with cache := invalidate_cache c5_state.cache 1 } 1).2.2 =
      Tier.aggHit :=
  ⟨get_user_stats_after_invalidate c5_state 1, by decide⟩

theorem get_validator_spec (cm : CMState) (schema : Schema) (key : String)
    (hcache : cm.enable_caching = true)
    (hlen : cm.validators_cache.length ≤ cm.cache_size) :
    (get_validator cm schema key).2.validators_cache.length ≤ cm.cache_size ∧
    (cm.validators_cache.length = cm.cache_size → 0 < cm.cache_size →
      cm.validators_cache.find? (fun e => e.1 = key) = none →
      (get_validator cm schema key).2.validators_cache =
        cm.validators_cache.tail ++ [(key, fastjsonschema_compile schema)]) := by
  unfold get_validator
  rw [hcache]
  simp only [Bool.not_true, Bool.false_eq_true, if_false]
  cases hf : cm.validators_cache.find? (fun e => e.1 = key) with
  | some e =>
      refine ⟨hlen, ?_⟩
      intro _ _ hnone
      cases hnone
  | none =>
      by_cases hover : cm.cache_size <
          (cm.validators_cache ++ [(key, fastjsonschema_compile schema)]).length
      · have hlen1 : (cm.validators_cache ++
            [(key, fastjsonschema_compile schema)]).length =
            cm.validators_cache.length + 1 := by simp
        constructor
        · show (if cm.cache_size <
              (cm.validators_cache ++ [(key, fastjsonschema_compile schema)]).length then
                (cm.validators_cache ++ [(key, fastjsonschema_compile schema)]).tail
              else cm.validators_cache ++
                [(key, fastjsonschema_compile schema)]).length ≤ cm.cache_size
          rw [if_pos hover, List.length_tail, hlen1]
          omega
        · intro hcap hpos _
          show (if cm.cache_size <
              (cm.validators_cache ++ [(key, fastjsonschema_compile schema)]).length then
                (cm.validators_cache ++ [(key, fastjsonschema_compile schema)]).tail
              else cm.validators_cache ++ [(key, fastjsonschema_compile schema)]) =
              cm.validators_cache.tail ++ [(key, fastjsonschema_compile schema)]
          rw [if_pos hover]
          cases hc : cm.validators_cache with
          | nil =>
              rw [hc] at hcap
              simp at hcap
              omega
          | cons a t => simp
      · have hlen1 : (cm.validators_cache ++
            [(key, fastjsonschema_compile schema)]).length =
            cm.validators_cache.length + 1 := by simp
        constructor
        · show (if cm.cache_size <
              (cm.validators_cache ++ [(key, fastjsonschema_compile schema)]).length then
                (cm.validators_cache ++ [(key, fastjsonschema_compile schema)]).tail
              else cm.validators_cache ++
                [(key, fastjsonschema_compile schema)]).length ≤ cm.cache_size
          rw [if_neg hover, hlen1]
          omega
        · intro hcap _ _
          omega

/-- Schema store for the three-contract eviction scenario. -/
def c9_env : List ((String × String) × Schema) :=
  [(("user_stats", "v1"), []), (("attempts_list", "v1"), []),
   (("attempt_detail", "v1"), [])]

/-- A fresh manager configured with a two-entry validator cache. -/
def c9_cm0 : CMState :=
  { cache_size := 2, enable_caching := true, validators_cache := [] }

/-- The manager state after validating against the three distinct
contract-version pairs in order. -/
def c9_chain : CMState :=
  (validate_contract c9_env
    (validate_contract c9_env
      (validate_contract c9_env c9_cm0 0 "user_stats" "v1").1
      0 "attempts_list" "v1").1
    0 "attempt_detail" "v1").1

/-- C9: with caching enabled, a validate call whose schema loads leaves at
most cache_size compiled validators cached (given the bound held before), and
when the call inserts a new validator into a cache at capacity the evicted
entry is exactly the first-inserted one, the rest shifting up and the new key
appended; in particular, with cache size 2, validating against three distinct
contract-version pairs starting from an empty cache leaves exactly the last
two pairs cached, the first-inserted pair evicted. -/
theorem validator_cache_bounded_fifo
    (env : List ((String × String) × Schema)) (cm : CMState) (data : Nat)
    (contract_name version : String) (schema : Schema)
    (hcache : cm.enable_caching = true)
    (hload : (env.find? (fun e => e.1 = (contract_name, version))).map (fun e => e.2)
      = some schema)
    (hlen : cm.validators_cache.length ≤ cm.cache_size) :
    (validate_contract env cm data contract_name version).1.validators_cache.length ≤
      cm.cache_size ∧
    (cm.validators_cache.length = cm.cache_size → 0 < cm.cache_size →
      cm.validators_cache.find?
        (fun e => e.1 = contract_name ++ ":" ++ version) = none →
      (validate_contract env cm data contract_name version).1.validators_cache =
        cm.validators_cache.tail ++
          [(contract_name ++ ":" ++ version, fastjsonschema_compile schema)]) ∧
    c9_chain.validators_cache =
      [("attempts_list" ++ ":" ++ "v1", ([] : Schema)),
       ("attempt_detail" ++ ":" ++ "v1", ([] : Schema))] := by
  have hcm : (validate_contract env cm data contract_name version).1 =
      (get_validator cm schema (contract_name ++ ":" ++ version)).2 := by
    unfold validate_contract
    rw [hload]
    split
    · rename_i heq
      cases heq
    · rename_i s2 heq
      have hs2 : schema = s2 := Option.some.inj heq
      subst hs2
      by_cases hmem : data ∈ (get_validator cm schema (contract_name ++ ":" ++ version)).1
      · simp [hmem]
      · simp [hmem]
  have hspec := get_validator_spec cm schema (contract_name ++ ":" ++ version) hcache hlen
  exact ⟨by rw [hcm]; exact hspec.1, by rw [hcm]; exact hspec.2, by decide⟩

/-- A manager whose two-entry cache is at capacity before the next call. -/
def c9_cmfull : CMState :=
  { cache_size := 2, enable_caching := true
    validators_cache := [("user_stats" ++ ":" ++ "v1", []),
                         ("attempts_list" ++ ":" ++ "v1", [])] }

/-- C9 witness: applying the theorem to the at-capacity manager and a fourth
contract shows the bound and the eviction of the first-inserted entry. -/
theorem validator_cache_bounded_fifo_witness :
    ((validate_contract c9_env c9_cmfull 0 "attempt_detail" "v1").1.validators_cache.length ≤
      c9_cmfull.cache_size ∧
    (c9_cmfull.validators_cache.length = c9_cmfull.cache_size →
      0 < c9_cmfull.cache_size →
      c9_cmfull.validators_cache.find?
        (fun e => e.1 = "attempt_detail" ++ ":" ++ "v1") = none →
      (validate_contract c9_env c9_cmfull 0 "attempt_detail" "v1").1.validators_cache =
        c9_cmfull.validators_cache.tail ++
          [("attempt_detail" ++ ":" ++ "v1", fastjsonschema_compile [])]) ∧
    c9_chain.validators_cache =
      [("attempts_list" ++ ":" ++ "v1", ([] : Schema)),
       ("attempt_detail" ++ ":" ++ "v1", ([] : Schema))]) ∧
    (validate_contract c9_env c9_cmfull 0 "attempt_detail" "v1").1.validators_cache =
      [("attempts_list" ++ ":" ++ "v1", ([] : Schema)),
       ("attempt_detail" ++ ":" ++ "v1", ([] : Schema))] :=
  ⟨validator_cache_bounded_fifo c9_env c9_cmfull 0 "attempt_detail" "v1" []
      rfl (by decide) (by decide),
   by decide⟩

end LMS
